import Mathlib

/-!
Verification development for the process-metrics collector in `main.go`
(`collectOnce` and its per-source reading blocks), shallowly embedded in Lean.

Modelling conventions:
* A parsed numeric token is represented as `Option Int`: `some v` for a token
  that `strconv.ParseInt(_, 10, 64)` accepts with value `v`, `none` for a token
  it rejects (in which case Go's `v, _ := strconv.ParseInt(...)` leaves `v = 0`,
  modelled by `Option.getD 0`).
* Go `int64` arithmetic wraps; the wrap is made explicit by `wrap64` at each
  arithmetic operation (`+` and `-`) the source performs.
* Go maps keyed by metric name are modelled as functions `Metric → Option Int`
  (`none` = key absent); the Go read `m[k]` that defaults to zero is
  `(f k).getD 0`, and `m[k] = v` is the pointwise update `upd f k v`.
* The kernel reads of one tick are abstracted into a `TickEnv`: each source is
  `none` on a read error, otherwise the tokenised content the code inspects.
-/

namespace ProcMon

/-- The ten metric names of the catalog `allMetrics` in `main.go`. -/
inductive Metric where
  | cpu
  | rss
  | vsize
  | threads
  | fds
  | read_bytes
  | write_bytes
  | minflt
  | majflt
  | ctx_switch
deriving DecidableEq

/-- Derivation kind of a metric: absolute passthrough or cumulative counter
whose emitted value is a delta against the previous raw reading. -/
inductive MetricKind where
  | absolute
  | cumulativeDelta
deriving DecidableEq

/-- Catalog entry, mirroring `metricInfo` in `main.go`. -/
structure MetricInfo where
  name : String
  label : String
  source : String
  notes : String

/-- The catalog `allMetrics` of `main.go`, verbatim. -/
def allMetrics : List MetricInfo :=
  [ ⟨"cpu", "CPU usage (ticks/sec)", "/proc/<pid>/stat", "delta"⟩,
    ⟨"rss", "Resident set size (memory pages)", "/proc/<pid>/statm", ""⟩,
    ⟨"vsize", "Virtual memory size (pages)", "/proc/<pid>/statm", ""⟩,
    ⟨"threads", "Number of threads", "/proc/<pid>/stat", ""⟩,
    ⟨"fds", "Open file descriptor count", "/proc/<pid>/fd/", "requires ownership"⟩,
    ⟨"read_bytes", "Storage bytes read per second", "/proc/<pid>/io", "delta; requires ownership"⟩,
    ⟨"write_bytes", "Storage bytes written per second", "/proc/<pid>/io", "delta; requires ownership"⟩,
    ⟨"minflt", "Minor page faults per second", "/proc/<pid>/stat", "delta"⟩,
    ⟨"majflt", "Major page faults per second", "/proc/<pid>/stat", "delta"⟩,
    ⟨"ctx_switch", "Context switches per second", "/proc/<pid>/status", "delta"⟩ ]

/-- The Go name string of a metric. -/
def metricName (m : Metric) : String :=
  match m with
  | .cpu => "cpu"
  | .rss => "rss"
  | .vsize => "vsize"
  | .threads => "threads"
  | .fds => "fds"
  | .read_bytes => "read_bytes"
  | .write_bytes => "write_bytes"
  | .minflt => "minflt"
  | .majflt => "majflt"
  | .ctx_switch => "ctx_switch"

/-- Kind of each metric, read off the `notes` column of the catalog
(`"delta"` marks cumulative counters emitted as deltas). -/
def metricKind (m : Metric) : MetricKind :=
  match m with
  | .cpu | .minflt | .majflt | .read_bytes | .write_bytes | .ctx_switch =>
      .cumulativeDelta
  | .rss | .vsize | .threads | .fds => .absolute

/-- The five kernel sources `collectOnce` reads from. -/
inductive Src where
  | stat
  | statm
  | io
  | fd
  | status
deriving DecidableEq

/-- Which source each metric is drawn from, following the five read blocks of
`collectOnce`. -/
def metricSource (m : Metric) : Src :=
  match m with
  | .cpu | .minflt | .majflt | .threads => .stat
  | .vsize | .rss => .statm
  | .read_bytes | .write_bytes => .io
  | .fds => .fd
  | .ctx_switch => .status

/-- `maxSamples` of `main.go`. -/
def maxSamples : Nat := 300

/-- Two's-complement wrap into the `int64` range, made explicit wherever the Go
source performs `int64` arithmetic. -/
def wrap64 (n : Int) : Int :=
  (n + 2 ^ 63) % 2 ^ 64 - 2 ^ 63

/-- A Go `map[string]int64` restricted to the ten metric keys: `none` means the
key is absent. -/
abbrev MMap := Metric → Option Int

/-- The empty map. -/
def emptyMMap : MMap := fun _ => none

/-- Map update `f[k] = v`. -/
def upd (f : MMap) (k : Metric) (v : Int) : MMap :=
  fun x => if x = k then some v else f x

/-- One line of `/proc/pid/io` or `/proc/pid/status` after the splitting the
code performs: `bad` when the line fails the split-into-two check (it is
skipped), `kv key val` for a well-split line whose key is `key` and whose value
token has parse outcome `val`. -/
inductive SrcLine where
  | bad
  | kv (key : String) (val : Option Int)

/-- The external inputs of one invocation of `collectOnce`: the resolved pid
(`0` = process not found), the timestamp, and the five kernel-source reads
(`none` = read error; otherwise the tokenised content). -/
structure TickEnv where
  pid : Nat
  ts : Int
  statRead : Option (List (Option Int))
  statmRead : Option (List (Option Int))
  ioRead : Option (List SrcLine)
  fdRead : Option Nat
  statusRead : Option (List SrcLine)

/-- `Sample` of `main.go`. -/
structure Sample where
  timestamp : Int
  values : MMap

/-- `ProcessStats` of `main.go` (minus the mutex, which only serialises
access and carries no state). -/
structure ProcessStats where
  samples : List Sample
  prevRaw : MMap
  initialized : Bool

/-- The trimming step `if len(samples) > maxSamples { samples =
samples[len(samples)-maxSamples:] }` performed after every append. -/
def trim (l : List Sample) : List Sample :=
  if maxSamples < l.length then l.drop (l.length - maxSamples) else l

/-- The `/proc/pid/stat` block of `collectOnce`: cpu, minflt, majflt, threads.
`p` is the `(values, newRaw)` pair of maps being built. -/
def statBlock (sel : Metric → Bool) (initialized : Bool) (prevRaw : MMap)
    (statRead : Option (List (Option Int))) (p : MMap × MMap) : MMap × MMap :=
  if sel .cpu || sel .minflt || sel .majflt || sel .threads then
    match statRead with
    | none => p
    | some fields =>
      if 20 ≤ fields.length then
        let p1 :=
          if sel .cpu then
            let utime := (fields.getD 13 none).getD 0
            let ktime := (fields.getD 14 none).getD 0
            let raw := wrap64 (utime + ktime)
            let vals :=
              if initialized then
                upd p.1 .cpu (wrap64 (raw - (prevRaw .cpu).getD 0))
              else p.1
            (vals, upd p.2 .cpu raw)
          else p
        let p2 :=
          if sel .minflt then
            let raw := (fields.getD 9 none).getD 0
            let vals :=
              if initialized then
                upd p1.1 .minflt (wrap64 (raw - (prevRaw .minflt).getD 0))
              else p1.1
            (vals, upd p1.2 .minflt raw)
          else p1
        let p3 :=
          if sel .majflt then
            let raw := (fields.getD 11 none).getD 0
            let vals :=
              if initialized then
                upd p2.1 .majflt (wrap64 (raw - (prevRaw .majflt).getD 0))
              else p2.1
            (vals, upd p2.2 .majflt raw)
          else p2
        if sel .threads then
          (upd p3.1 .threads ((fields.getD 19 none).getD 0), p3.2)
        else p3
      else p
  else p

/-- The `/proc/pid/statm` block of `collectOnce`: vsize, rss. -/
def statmBlock (sel : Metric → Bool)
    (statmRead : Option (List (Option Int))) (p : MMap × MMap) : MMap × MMap :=
  if sel .vsize || sel .rss then
    match statmRead with
    | none => p
    | some sm =>
      if 2 ≤ sm.length then
        let p1 :=
          if sel .vsize then (upd p.1 .vsize ((sm.getD 0 none).getD 0), p.2)
          else p
        if sel .rss then (upd p1.1 .rss ((sm.getD 1 none).getD 0), p1.2)
        else p1
      else p
  else p

/-- Processing of one `/proc/pid/io` line inside the loop of `collectOnce`:
skip malformed lines, skip lines whose value fails to parse, and on
`read_bytes` / `write_bytes` keys update the maps. -/
def ioStep (sel : Metric → Bool) (initialized : Bool) (prevRaw : MMap)
    (p : MMap × MMap) (line : SrcLine) : MMap × MMap :=
  match line with
  | .bad => p
  | .kv _ none => p
  | .kv key (some v) =>
    if key = "read_bytes" then
      if sel .read_bytes then
        let vals :=
          if initialized then
            upd p.1 .read_bytes (wrap64 (v - (prevRaw .read_bytes).getD 0))
          else p.1
        (vals, upd p.2 .read_bytes v)
      else p
    else if key = "write_bytes" then
      if sel .write_bytes then
        let vals :=
          if initialized then
            upd p.1 .write_bytes (wrap64 (v - (prevRaw .write_bytes).getD 0))
          else p.1
        (vals, upd p.2 .write_bytes v)
      else p
    else p

/-- The `/proc/pid/io` block of `collectOnce`. -/
def ioBlock (sel : Metric → Bool) (initialized : Bool) (prevRaw : MMap)
    (ioRead : Option (List SrcLine)) (p : MMap × MMap) : MMap × MMap :=
  if sel .read_bytes || sel .write_bytes then
    match ioRead with
    | none => p
    | some lines => lines.foldl (ioStep sel initialized prevRaw) p
  else p

/-- The `/proc/pid/fd` block of `collectOnce`: count of directory entries. -/
def fdBlock (sel : Metric → Bool) (fdRead : Option Nat)
    (p : MMap × MMap) : MMap × MMap :=
  if sel .fds then
    match fdRead with
    | none => p
    | some n => (upd p.1 .fds (Int.ofNat n), p.2)
  else p

/-- The voluntary/nonvoluntary counter extraction loop over `/proc/pid/status`
lines: the last matching line of each key wins, a parse failure stores 0. -/
def statusCounters (lines : List SrcLine) : Int × Int :=
  lines.foldl
    (fun acc l =>
      match l with
      | .bad => acc
      | .kv key val =>
        if key = "voluntary_ctxt_switches:" then (val.getD 0, acc.2)
        else if key = "nonvoluntary_ctxt_switches:" then (acc.1, val.getD 0)
        else acc)
    (0, 0)

/-- The `/proc/pid/status` block of `collectOnce`: ctx_switch. -/
def statusBlock (sel : Metric → Bool) (initialized : Bool) (prevRaw : MMap)
    (statusRead : Option (List SrcLine)) (p : MMap × MMap) : MMap × MMap :=
  if sel .ctx_switch then
    match statusRead with
    | none => p
    | some lines =>
      let c := statusCounters lines
      let raw := wrap64 (c.1 + c.2)
      let vals :=
        if initialized then
          upd p.1 .ctx_switch (wrap64 (raw - (prevRaw .ctx_switch).getD 0))
        else p.1
      (vals, upd p.2 .ctx_switch raw)
  else p

/-- The read-and-derive phase of `collectOnce` when the pid resolved: the five
source blocks run in source order on the initially empty `(values, newRaw)`
pair, using the snapshot of `initialized` and `prevRaw` taken under the lock. -/
def readPhase (sel : Metric → Bool) (initialized : Bool) (prevRaw : MMap)
    (env : TickEnv) : MMap × MMap :=
  statusBlock sel initialized prevRaw env.statusRead
    (fdBlock sel env.fdRead
      (ioBlock sel initialized prevRaw env.ioRead
        (statmBlock sel env.statmRead
          (statBlock sel initialized prevRaw env.statRead
            (emptyMMap, emptyMMap)))))

/-- `collectOnce` of `main.go`: on pid 0, record an absence (empty value map,
`initialized := false`, `prevRaw` untouched); otherwise run the read phase,
merge `newRaw` into `prevRaw`, set `initialized := true`, and append the
sample.  Both branches trim to the last `maxSamples` entries. -/
def collectOnce (sel : Metric → Bool) (env : TickEnv)
    (pst : ProcessStats) : ProcessStats :=
  if env.pid = 0 then
    { pst with
      initialized := false
      samples := trim (pst.samples ++ [{ timestamp := env.ts, values := emptyMMap }]) }
  else
    let p := readPhase sel pst.initialized pst.prevRaw env
    { samples := trim (pst.samples ++ [{ timestamp := env.ts, values := p.1 }])
      prevRaw := fun m =>
        match p.2 m with
        | some v => some v
        | none => pst.prevRaw m
      initialized := true }

/-- A sequence of collection ticks, oldest first. -/
def runTicks (sel : Metric → Bool) (envs : List TickEnv)
    (pst : ProcessStats) : ProcessStats :=
  envs.foldl (fun s e => collectOnce sel e s) pst

/-- The value map of the most recent sample, if any: `some none` = sample
present, metric omitted; `some (some v)` = sample present with value `v`. -/
def lastValue (pst : ProcessStats) (m : Metric) : Option (Option Int) :=
  pst.samples.getLast?.map (fun s => s.values m)

/-- The sample one tick appends: empty value map on absence, the read phase's
value map otherwise. -/
def tickSample (sel : Metric → Bool) (env : TickEnv)
    (pst : ProcessStats) : Sample :=
  if env.pid = 0 then { timestamp := env.ts, values := emptyMMap }
  else
    { timestamp := env.ts
      values := (readPhase sel pst.initialized pst.prevRaw env).1 }

/-- All five kernel-source reads of a tick failed. -/
def allReadsFail (env : TickEnv) : Prop :=
  env.statRead = none ∧ env.statmRead = none ∧ env.ioRead = none ∧
  env.fdRead = none ∧ env.statusRead = none

/-- The same tick with one kernel source's read failed. -/
def failSrc (s : Src) (env : TickEnv) : TickEnv :=
  match s with
  | .stat => { env with statRead := none }
  | .statm => { env with statmRead := none }
  | .io => { env with ioRead := none }
  | .fd => { env with fdRead := none }
  | .status => { env with statusRead := none }

/-! ### Concrete fixtures used by witnesses and counterexamples -/

/-- Select every metric. -/
def selAll : Metric → Bool := fun _ => true

/-- Select only cpu. -/
def selCpu : Metric → Bool :=
  fun m => match m with | .cpu => true | _ => false

/-- Select only threads. -/
def selThreads : Metric → Bool :=
  fun m => match m with | .threads => true | _ => false

/-- The startup state of a series (`&ProcessStats{prevRaw: make(map...)}`). -/
def pst0 : ProcessStats :=
  { samples := [], prevRaw := emptyMMap, initialized := false }

/-- A state whose previous raw cpu counter is 2, already initialized. -/
def psPrev2 : ProcessStats :=
  { samples := [], prevRaw := upd emptyMMap .cpu 2, initialized := true }

/-- A tick on which the process was not found. -/
def envAbsent : TickEnv := ⟨0, 0, none, none, none, none, none⟩

/-- A tick with a resolved pid on which every kernel-source read failed. -/
def envNoReads : TickEnv := ⟨1, 0, none, none, none, none, none⟩

/-- A 20-token `/proc/pid/stat` content with the given utime/ktime parse
outcomes at indices 13 and 14 (all other tokens unparseable). -/
def statTokens (u k : Option Int) : List (Option Int) :=
  List.replicate 13 none ++ [u, k] ++ List.replicate 5 none

/-- A resolved-pid tick whose only successful read is `/proc/pid/stat` with
the given utime/ktime tokens. -/
def envStat (ts : Int) (u k : Option Int) : TickEnv :=
  ⟨1, ts, some (statTokens u k), none, none, none, none⟩

/-- A resolved-pid tick whose stat read succeeds with 20 tokens none of which
parses (in particular the threads field at index 19 fails to parse). -/
def envBadTokens : TickEnv :=
  ⟨1, 0, some (List.replicate 20 none), none, none, none, none⟩

/-- A resolved-pid tick with successful stat (threads = 7), statm
(vsize = 11, rss = 12) and fd (4 entries) reads. -/
def envRich : TickEnv :=
  ⟨1, 0, some (List.replicate 19 none ++ [some 7]), some [some 11, some 12],
    none, some 4, none⟩

/-! ### Per-metric closed forms of the read phase

The five blocks of `readPhase` touch pairwise disjoint metric keys, so the
value/raw produced for a metric depends only on the block of its source.  The
following functions state that per-metric result directly; `readPhase_fst` and
`readPhase_snd` below prove they agree with `readPhase`. -/

/-- The `/proc/pid/stat` token list, if the block runs and the tokens pass the
`len(fields) >= 20` check. -/
def statFieldsOk (sel : Metric → Bool)
    (statRead : Option (List (Option Int))) : Option (List (Option Int)) :=
  if sel .cpu || sel .minflt || sel .majflt || sel .threads then
    match statRead with
    | none => none
    | some fields => if 20 ≤ fields.length then some fields else none
  else none

/-- The `/proc/pid/statm` token list, if the block runs and the tokens pass the
`len(sm) >= 2` check. -/
def statmFieldsOk (sel : Metric → Bool)
    (statmRead : Option (List (Option Int))) : Option (List (Option Int)) :=
  if sel .vsize || sel .rss then
    match statmRead with
    | none => none
    | some sm => if 2 ≤ sm.length then some sm else none
  else none

/-- The `/proc/pid/io` line list, if the block runs and the read succeeded. -/
def ioLinesOk (sel : Metric → Bool) (ioRead : Option (List SrcLine)) :
    Option (List SrcLine) :=
  if sel .read_bytes || sel .write_bytes then ioRead else none

/-- The `/proc/pid/status` line list, if the block runs and the read
succeeded. -/
def statusLinesOk (sel : Metric → Bool) (statusRead : Option (List SrcLine)) :
    Option (List SrcLine) :=
  if sel .ctx_switch then statusRead else none

/-- One step of scanning io lines for the last successfully parsed value of a
key. -/
def ioScanStep (key : String) (acc : Option Int) (l : SrcLine) : Option Int :=
  match l with
  | .kv k (some v) => if k = key then some v else acc
  | _ => acc

/-- Last successfully parsed value among the io lines with the given key
(later lines overwrite earlier ones). -/
def ioScan (key : String) (lines : List SrcLine) : Option Int :=
  lines.foldl (ioScanStep key) none

/-- The raw counter value the tick extracts for a cumulative metric (`none`
when the metric is not selected, its source read failed, or no usable field was
found); this is what gets stored into `prevRaw`.  Absolute metrics never store
a raw value. -/
def rawAt (sel : Metric → Bool) (env : TickEnv) (m : Metric) : Option Int :=
  match m with
  | .cpu =>
    (statFieldsOk sel env.statRead).bind fun fields =>
      if sel .cpu then
        some (wrap64 ((fields.getD 13 none).getD 0 + (fields.getD 14 none).getD 0))
      else none
  | .minflt =>
    (statFieldsOk sel env.statRead).bind fun fields =>
      if sel .minflt then some ((fields.getD 9 none).getD 0) else none
  | .majflt =>
    (statFieldsOk sel env.statRead).bind fun fields =>
      if sel .majflt then some ((fields.getD 11 none).getD 0) else none
  | .read_bytes =>
    (ioLinesOk sel env.ioRead).bind fun lines =>
      if sel .read_bytes then ioScan "read_bytes" lines else none
  | .write_bytes =>
    (ioLinesOk sel env.ioRead).bind fun lines =>
      if sel .write_bytes then ioScan "write_bytes" lines else none
  | .ctx_switch =>
    (statusLinesOk sel env.statusRead).bind fun lines =>
      some (wrap64 ((statusCounters lines).1 + (statusCounters lines).2))
  | .rss | .vsize | .threads | .fds => none

/-- The value the tick emits for a metric (`none` = omitted from the sample):
cumulative metrics emit a wrapped delta against `prevRaw` (defaulting a missing
entry to 0) only when `initialized` holds; absolute metrics pass the extracted
field through. -/
def valueAt (sel : Metric → Bool) (initialized : Bool) (prevRaw : MMap)
    (env : TickEnv) (m : Metric) : Option Int :=
  match metricKind m with
  | .cumulativeDelta =>
    (rawAt sel env m).bind fun raw =>
      if initialized then some (wrap64 (raw - (prevRaw m).getD 0)) else none
  | .absolute =>
    match m with
    | .threads =>
      (statFieldsOk sel env.statRead).bind fun fields =>
        if sel .threads then some ((fields.getD 19 none).getD 0) else none
    | .vsize =>
      (statmFieldsOk sel env.statmRead).bind fun sm =>
        if sel .vsize then some ((sm.getD 0 none).getD 0) else none
    | .rss =>
      (statmFieldsOk sel env.statmRead).bind fun sm =>
        if sel .rss then some ((sm.getD 1 none).getD 0) else none
    | .fds =>
      env.fdRead.bind fun n =>
        if sel .fds then some (Int.ofNat n) else none
    | _ => none

/-! ### Pointwise behaviour of the five blocks -/

theorem upd_self (f : MMap) (k : Metric) (v : Int) : upd f k v k = some v := by
  simp [upd]

theorem upd_ne (f : MMap) (k x : Metric) (v : Int) (h : x ≠ k) :
    upd f k v x = f x := by
  simp [upd, h]

/-- The stat block leaves metrics outside {cpu, minflt, majflt, threads}
untouched. -/
theorem statBlock_ne (sel : Metric → Bool) (initialized : Bool) (prevRaw : MMap)
    (sr : Option (List (Option Int))) (p : MMap × MMap) (m : Metric)
    (h1 : m ≠ .cpu) (h2 : m ≠ .minflt) (h3 : m ≠ .majflt) (h4 : m ≠ .threads) :
    (statBlock sel initialized prevRaw sr p).1 m = p.1 m ∧
    (statBlock sel initialized prevRaw sr p).2 m = p.2 m := by
  cases sr with
  | none =>
    cases h : (sel .cpu || sel .minflt || sel .majflt || sel .threads) <;>
      simp [statBlock, h]
  | some fields =>
    cases hc : sel .cpu <;> cases hmi : sel .minflt <;>
      cases hma : sel .majflt <;> cases hth : sel .threads <;>
      cases hin : initialized <;>
      simp [statBlock, hc, hmi, hma, hth, hin] <;>
      split <;> simp [upd, h1, h2, h3, h4]

/-- The stat block never touches `newRaw` at threads (threads is absolute). -/
theorem statBlock_snd_threads (sel : Metric → Bool) (initialized : Bool)
    (prevRaw : MMap) (sr : Option (List (Option Int))) (p : MMap × MMap) :
    (statBlock sel initialized prevRaw sr p).2 .threads = p.2 .threads := by
  cases sr with
  | none =>
    cases h : (sel .cpu || sel .minflt || sel .majflt || sel .threads) <;>
      simp [statBlock, h]
  | some fields =>
    cases hc : sel .cpu <;> cases hmi : sel .minflt <;>
      cases hma : sel .majflt <;> cases hth : sel .threads <;>
      cases hin : initialized <;>
      simp [statBlock, hc, hmi, hma, hth, hin] <;>
      split <;> simp [upd]

/-- Raw counter stored by the stat block for cpu. -/
theorem statBlock_snd_cpu (sel : Metric → Bool) (initialized : Bool)
    (prevRaw : MMap) (sr : Option (List (Option Int))) (p : MMap × MMap)
    (hp : p.2 .cpu = none) :
    (statBlock sel initialized prevRaw sr p).2 .cpu =
      (statFieldsOk sel sr).bind fun fields =>
        if sel .cpu then
          some (wrap64 ((fields.getD 13 none).getD 0 + (fields.getD 14 none).getD 0))
        else none := by
  cases sr with
  | none =>
    cases h : (sel .cpu || sel .minflt || sel .majflt || sel .threads) <;>
      simp [statBlock, statFieldsOk, h, hp]
  | some fields =>
    cases hc : sel .cpu <;> cases hmi : sel .minflt <;>
      cases hma : sel .majflt <;> cases hth : sel .threads <;>
      cases hin : initialized <;>
      simp [statBlock, statFieldsOk, hc, hmi, hma, hth, hin, hp] <;>
      split <;> simp [upd, hp]

/-- Value emitted by the stat block for cpu. -/
theorem statBlock_fst_cpu (sel : Metric → Bool) (initialized : Bool)
    (prevRaw : MMap) (sr : Option (List (Option Int))) (p : MMap × MMap)
    (hp : p.1 .cpu = none) :
    (statBlock sel initialized prevRaw sr p).1 .cpu =
      ((statFieldsOk sel sr).bind fun fields =>
        if sel .cpu then
          some (wrap64 ((fields.getD 13 none).getD 0 + (fields.getD 14 none).getD 0))
        else none).bind fun raw =>
          if initialized then some (wrap64 (raw - (prevRaw .cpu).getD 0))
          else none := by
  cases sr with
  | none =>
    cases h : (sel .cpu || sel .minflt || sel .majflt || sel .threads) <;>
      simp [statBlock, statFieldsOk, h, hp]
  | some fields =>
    cases hc : sel .cpu <;> cases hmi : sel .minflt <;>
      cases hma : sel .majflt <;> cases hth : sel .threads <;>
      cases hin : initialized <;>
      simp [statBlock, statFieldsOk, hc, hmi, hma, hth, hin, hp] <;>
      split <;> simp [upd, hp]

/-- Raw counter stored by the stat block for minflt. -/
theorem statBlock_snd_minflt (sel : Metric → Bool) (initialized : Bool)
    (prevRaw : MMap) (sr : Option (List (Option Int))) (p : MMap × MMap)
    (hp : p.2 .minflt = none) :
    (statBlock sel initialized prevRaw sr p).2 .minflt =
      (statFieldsOk sel sr).bind fun fields =>
        if sel .minflt then some ((fields.getD 9 none).getD 0) else none := by
  cases sr with
  | none =>
    cases h : (sel .cpu || sel .minflt || sel .majflt || sel .threads) <;>
      simp [statBlock, statFieldsOk, h, hp]
  | some fields =>
    cases hc : sel .cpu <;> cases hmi : sel .minflt <;>
      cases hma : sel .majflt <;> cases hth : sel .threads <;>
      cases hin : initialized <;>
      simp [statBlock, statFieldsOk, hc, hmi, hma, hth, hin, hp] <;>
      split <;> simp [upd, hp]

/-- Value emitted by the stat block for minflt. -/
theorem statBlock_fst_minflt (sel : Metric → Bool) (initialized : Bool)
    (prevRaw : MMap) (sr : Option (List (Option Int))) (p : MMap × MMap)
    (hp : p.1 .minflt = none) :
    (statBlock sel initialized prevRaw sr p).1 .minflt =
      ((statFieldsOk sel sr).bind fun fields =>
        if sel .minflt then some ((fields.getD 9 none).getD 0) else none).bind
        fun raw =>
          if initialized then some (wrap64 (raw - (prevRaw .minflt).getD 0))
          else none := by
  cases sr with
  | none =>
    cases h : (sel .cpu || sel .minflt || sel .majflt || sel .threads) <;>
      simp [statBlock, statFieldsOk, h, hp]
  | some fields =>
    cases hc : sel .cpu <;> cases hmi : sel .minflt <;>
      cases hma : sel .majflt <;> cases hth : sel .threads <;>
      cases hin : initialized <;>
      simp [statBlock, statFieldsOk, hc, hmi, hma, hth, hin, hp] <;>
      split <;> simp [upd, hp]

/-- Raw counter stored by the stat block for majflt. -/
theorem statBlock_snd_majflt (sel : Metric → Bool) (initialized : Bool)
    (prevRaw : MMap) (sr : Option (List (Option Int))) (p : MMap × MMap)
    (hp : p.2 .majflt = none) :
    (statBlock sel initialized prevRaw sr p).2 .majflt =
      (statFieldsOk sel sr).bind fun fields =>
        if sel .majflt then some ((fields.getD 11 none).getD 0) else none := by
  cases sr with
  | none =>
    cases h : (sel .cpu || sel .minflt || sel .majflt || sel .threads) <;>
      simp [statBlock, statFieldsOk, h, hp]
  | some fields =>
    cases hc : sel .cpu <;> cases hmi : sel .minflt <;>
      cases hma : sel .majflt <;> cases hth : sel .threads <;>
      cases hin : initialized <;>
      simp [statBlock, statFieldsOk, hc, hmi, hma, hth, hin, hp] <;>
      split <;> simp [upd, hp]

/-- Value emitted by the stat block for majflt. -/
theorem statBlock_fst_majflt (sel : Metric → Bool) (initialized : Bool)
    (prevRaw : MMap) (sr : Option (List (Option Int))) (p : MMap × MMap)
    (hp : p.1 .majflt = none) :
    (statBlock sel initialized prevRaw sr p).1 .majflt =
      ((statFieldsOk sel sr).bind fun fields =>
        if sel .majflt then some ((fields.getD 11 none).getD 0) else none).bind
        fun raw =>
          if initialized then some (wrap64 (raw - (prevRaw .majflt).getD 0))
          else none := by
  cases sr with
  | none =>
    cases h : (sel .cpu || sel .minflt || sel .majflt || sel .threads) <;>
      simp [statBlock, statFieldsOk, h, hp]
  | some fields =>
    cases hc : sel .cpu <;> cases hmi : sel .minflt <;>
      cases hma : sel .majflt <;> cases hth : sel .threads <;>
      cases hin : initialized <;>
      simp [statBlock, statFieldsOk, hc, hmi, hma, hth, hin, hp] <;>
      split <;> simp [upd, hp]

/-- Value emitted by the stat block for threads (absolute passthrough,
independent of `initialized` and `prevRaw`). -/
theorem statBlock_fst_threads (sel : Metric → Bool) (initialized : Bool)
    (prevRaw : MMap) (sr : Option (List (Option Int))) (p : MMap × MMap)
    (hp : p.1 .threads = none) :
    (statBlock sel initialized prevRaw sr p).1 .threads =
      (statFieldsOk sel sr).bind fun fields =>
        if sel .threads then some ((fields.getD 19 none).getD 0) else none := by
  cases sr with
  | none =>
    cases h : (sel .cpu || sel .minflt || sel .majflt || sel .threads) <;>
      simp [statBlock, statFieldsOk, h, hp]
  | some fields =>
    cases hc : sel .cpu <;> cases hmi : sel .minflt <;>
      cases hma : sel .majflt <;> cases hth : sel .threads <;>
      cases hin : initialized <;>
      simp [statBlock, statFieldsOk, hc, hmi, hma, hth, hin, hp] <;>
      split <;> simp [upd, hp]

/-- The statm block never touches `newRaw` (both its metrics are absolute). -/
theorem statmBlock_snd (sel : Metric → Bool)
    (smr : Option (List (Option Int))) (p : MMap × MMap) :
    (statmBlock sel smr p).2 = p.2 := by
  cases smr with
  | none =>
    cases h : (sel .vsize || sel .rss) <;> simp [statmBlock, h]
  | some sm =>
    cases hv : sel .vsize <;> cases hr : sel .rss <;>
      simp [statmBlock, hv, hr] <;> split <;> simp

/-- The statm block leaves metrics outside {vsize, rss} untouched. -/
theorem statmBlock_fst_ne (sel : Metric → Bool)
    (smr : Option (List (Option Int))) (p : MMap × MMap) (m : Metric)
    (h1 : m ≠ .vsize) (h2 : m ≠ .rss) :
    (statmBlock sel smr p).1 m = p.1 m := by
  cases smr with
  | none =>
    cases h : (sel .vsize || sel .rss) <;> simp [statmBlock, h]
  | some sm =>
    cases hv : sel .vsize <;> cases hr : sel .rss <;>
      simp [statmBlock, hv, hr] <;> split <;> simp [upd, h1, h2]

/-- Value emitted by the statm block for vsize. -/
theorem statmBlock_fst_vsize (sel : Metric → Bool)
    (smr : Option (List (Option Int))) (p : MMap × MMap)
    (hp : p.1 .vsize = none) :
    (statmBlock sel smr p).1 .vsize =
      (statmFieldsOk sel smr).bind fun sm =>
        if sel .vsize then some ((sm.getD 0 none).getD 0) else none := by
  cases smr with
  | none =>
    cases h : (sel .vsize || sel .rss) <;> simp [statmBlock, statmFieldsOk, h, hp]
  | some sm =>
    cases hv : sel .vsize <;> cases hr : sel .rss <;>
      simp [statmBlock, statmFieldsOk, hv, hr, hp] <;> split <;> simp [upd, hp]

/-- Value emitted by the statm block for rss. -/
theorem statmBlock_fst_rss (sel : Metric → Bool)
    (smr : Option (List (Option Int))) (p : MMap × MMap)
    (hp : p.1 .rss = none) :
    (statmBlock sel smr p).1 .rss =
      (statmFieldsOk sel smr).bind fun sm =>
        if sel .rss then some ((sm.getD 1 none).getD 0) else none := by
  cases smr with
  | none =>
    cases h : (sel .vsize || sel .rss) <;> simp [statmBlock, statmFieldsOk, h, hp]
  | some sm =>
    cases hv : sel .vsize <;> cases hr : sel .rss <;>
      simp [statmBlock, statmFieldsOk, hv, hr, hp] <;> split <;> simp [upd, hp]

/-- One io step leaves metrics outside {read_bytes, write_bytes} untouched. -/
theorem ioStep_ne (sel : Metric → Bool) (initialized : Bool) (prevRaw : MMap)
    (p : MMap × MMap) (l : SrcLine) (m : Metric)
    (h1 : m ≠ .read_bytes) (h2 : m ≠ .write_bytes) :
    (ioStep sel initialized prevRaw p l).1 m = p.1 m ∧
    (ioStep sel initialized prevRaw p l).2 m = p.2 m := by
  cases l with
  | bad => exact ⟨rfl, rfl⟩
  | kv key val =>
    cases val with
    | none => exact ⟨rfl, rfl⟩
    | some v =>
      by_cases hk : key = "read_bytes" <;> by_cases hk2 : key = "write_bytes" <;>
        cases hrb : sel .read_bytes <;> cases hwb : sel .write_bytes <;>
        cases hin : initialized <;>
        simp [ioStep, hk, hk2, hrb, hwb, hin, upd, h1, h2]

/-- Folding io steps leaves metrics outside {read_bytes, write_bytes}
untouched. -/
theorem ioFold_ne (sel : Metric → Bool) (initialized : Bool) (prevRaw : MMap)
    (lines : List SrcLine) (m : Metric)
    (h1 : m ≠ .read_bytes) (h2 : m ≠ .write_bytes) :
    ∀ p : MMap × MMap,
      (lines.foldl (ioStep sel initialized prevRaw) p).1 m = p.1 m ∧
      (lines.foldl (ioStep sel initialized prevRaw) p).2 m = p.2 m := by
  induction lines with
  | nil => exact fun p => ⟨rfl, rfl⟩
  | cons l ls ih =>
    intro p
    have hs := ioStep_ne sel initialized prevRaw p l m h1 h2
    have hf := ih (ioStep sel initialized prevRaw p l)
    simp only [List.foldl_cons]
    exact ⟨hf.1.trans hs.1, hf.2.trans hs.2⟩

/-- The io block leaves metrics outside {read_bytes, write_bytes} untouched. -/
theorem ioBlock_ne (sel : Metric → Bool) (initialized : Bool) (prevRaw : MMap)
    (ior : Option (List SrcLine)) (p : MMap × MMap) (m : Metric)
    (h1 : m ≠ .read_bytes) (h2 : m ≠ .write_bytes) :
    (ioBlock sel initialized prevRaw ior p).1 m = p.1 m ∧
    (ioBlock sel initialized prevRaw ior p).2 m = p.2 m := by
  cases ior with
  | none =>
    cases h : (sel .read_bytes || sel .write_bytes) <;> simp [ioBlock, h]
  | some lines =>
    cases h : (sel .read_bytes || sel .write_bytes) <;> simp [ioBlock, h]
    exact ioFold_ne sel initialized prevRaw lines m h1 h2 p

/-- Scanning from an arbitrary accumulator: the scan started from `none` wins
when it finds something, otherwise the accumulator survives. -/
theorem ioScan_from (key : String) (ls : List SrcLine) :
    ∀ a : Option Int,
      ls.foldl (ioScanStep key) a =
        match ls.foldl (ioScanStep key) none with
        | some w => some w
        | none => a := by
  induction ls with
  | nil => intro a; rfl
  | cons l ls ih =>
    intro a
    simp only [List.foldl_cons]
    rw [ih (ioScanStep key a l), ih (ioScanStep key none l)]
    cases hls : ls.foldl (ioScanStep key) none with
    | some w => rfl
    | none =>
      cases l with
      | bad => rfl
      | kv k val =>
        cases val with
        | none => rfl
        | some v => by_cases hk : k = key <;> simp [ioScanStep, hk]

/-- When read_bytes is not selected, the io fold leaves it untouched. -/
theorem ioFold_rb_notsel (sel : Metric → Bool) (initialized : Bool)
    (prevRaw : MMap) (hsel : sel .read_bytes = false) (lines : List SrcLine) :
    ∀ p : MMap × MMap,
      (lines.foldl (ioStep sel initialized prevRaw) p).1 .read_bytes =
        p.1 .read_bytes ∧
      (lines.foldl (ioStep sel initialized prevRaw) p).2 .read_bytes =
        p.2 .read_bytes := by
  induction lines with
  | nil => exact fun p => ⟨rfl, rfl⟩
  | cons l ls ih =>
    intro p
    simp only [List.foldl_cons]
    have hf := ih (ioStep sel initialized prevRaw p l)
    have hs : (ioStep sel initialized prevRaw p l).1 .read_bytes = p.1 .read_bytes ∧
        (ioStep sel initialized prevRaw p l).2 .read_bytes = p.2 .read_bytes := by
      cases l with
      | bad => exact ⟨rfl, rfl⟩
      | kv key val =>
        cases val with
        | none => exact ⟨rfl, rfl⟩
        | some v =>
          by_cases hk : key = "read_bytes" <;> by_cases hk2 : key = "write_bytes" <;>
            cases hwb : sel .write_bytes <;> cases hin : initialized <;>
            simp [ioStep, hk, hk2, hsel, hwb, hin, upd]
    exact ⟨hf.1.trans hs.1, hf.2.trans hs.2⟩

/-- When write_bytes is not selected, the io fold leaves it untouched. -/
theorem ioFold_wb_notsel (sel : Metric → Bool) (initialized : Bool)
    (prevRaw : MMap) (hsel : sel .write_bytes = false) (lines : List SrcLine) :
    ∀ p : MMap × MMap,
      (lines.foldl (ioStep sel initialized prevRaw) p).1 .write_bytes =
        p.1 .write_bytes ∧
      (lines.foldl (ioStep sel initialized prevRaw) p).2 .write_bytes =
        p.2 .write_bytes := by
  induction lines with
  | nil => exact fun p => ⟨rfl, rfl⟩
  | cons l ls ih =>
    intro p
    simp only [List.foldl_cons]
    have hf := ih (ioStep sel initialized prevRaw p l)
    have hs : (ioStep sel initialized prevRaw p l).1 .write_bytes = p.1 .write_bytes ∧
        (ioStep sel initialized prevRaw p l).2 .write_bytes = p.2 .write_bytes := by
      cases l with
      | bad => exact ⟨rfl, rfl⟩
      | kv key val =>
        cases val with
        | none => exact ⟨rfl, rfl⟩
        | some v =>
          by_cases hk : key = "read_bytes" <;> by_cases hk2 : key = "write_bytes" <;>
            cases hrb : sel .read_bytes <;> cases hin : initialized <;>
            simp [ioStep, hk, hk2, hsel, hrb, hin, upd]
    exact ⟨hf.1.trans hs.1, hf.2.trans hs.2⟩

/-- The io fold at read_bytes, when selected: the last successfully parsed
`read_bytes` line determines both the stored raw and (when initialized) the
emitted delta. -/
theorem ioFold_rb (sel : Metric → Bool) (initialized : Bool) (prevRaw : MMap)
    (hsel : sel .read_bytes = true) (lines : List SrcLine) :
    ∀ p : MMap × MMap,
      ((lines.foldl (ioStep sel initialized prevRaw) p).2 .read_bytes =
        match ioScan "read_bytes" lines with
        | some v => some v
        | none => p.2 .read_bytes) ∧
      ((lines.foldl (ioStep sel initialized prevRaw) p).1 .read_bytes =
        match ioScan "read_bytes" lines with
        | some v =>
          if initialized then some (wrap64 (v - (prevRaw .read_bytes).getD 0))
          else p.1 .read_bytes
        | none => p.1 .read_bytes) := by
  induction lines with
  | nil => exact fun p => ⟨rfl, rfl⟩
  | cons l ls ih =>
    intro p
    simp only [List.foldl_cons]
    have hf := ih (ioStep sel initialized prevRaw p l)
    have hscan : ioScan "read_bytes" (l :: ls) =
        match ioScan "read_bytes" ls with
        | some w => some w
        | none => ioScanStep "read_bytes" none l := by
      show (l :: ls).foldl (ioScanStep "read_bytes") none = _
      simp only [List.foldl_cons]
      rw [ioScan_from "read_bytes" ls (ioScanStep "read_bytes" none l)]
      rfl
    rw [hscan]
    cases l with
    | bad =>
      refine ⟨hf.1.trans ?_, hf.2.trans ?_⟩ <;>
        cases hls : ioScan "read_bytes" ls <;> simp [ioScanStep, ioStep]
    | kv key val =>
      cases val with
      | none =>
        refine ⟨hf.1.trans ?_, hf.2.trans ?_⟩ <;>
          cases hls : ioScan "read_bytes" ls <;> simp [ioScanStep, ioStep]
      | some v =>
        by_cases hk : key = "read_bytes"
        · subst hk
          refine ⟨hf.1.trans ?_, hf.2.trans ?_⟩ <;>
            cases hls : ioScan "read_bytes" ls <;>
            cases hin : initialized <;>
            simp [ioScanStep, ioStep, hsel, hin, upd]
        · refine ⟨hf.1.trans ?_, hf.2.trans ?_⟩ <;>
            by_cases hk2 : key = "write_bytes" <;>
            cases hwb : sel .write_bytes <;>
            cases hin : initialized <;>
            cases hls : ioScan "read_bytes" ls <;>
            simp [ioScanStep, ioStep, hk, hk2, hsel, hwb, hin, upd]

/-- The io fold at write_bytes, when selected. -/
theorem ioFold_wb (sel : Metric → Bool) (initialized : Bool) (prevRaw : MMap)
    (hsel : sel .write_bytes = true) (lines : List SrcLine) :
    ∀ p : MMap × MMap,
      ((lines.foldl (ioStep sel initialized prevRaw) p).2 .write_bytes =
        match ioScan "write_bytes" lines with
        | some v => some v
        | none => p.2 .write_bytes) ∧
      ((lines.foldl (ioStep sel initialized prevRaw) p).1 .write_bytes =
        match ioScan "write_bytes" lines with
        | some v =>
          if initialized then some (wrap64 (v - (prevRaw .write_bytes).getD 0))
          else p.1 .write_bytes
        | none => p.1 .write_bytes) := by
  induction lines with
  | nil => exact fun p => ⟨rfl, rfl⟩
  | cons l ls ih =>
    intro p
    simp only [List.foldl_cons]
    have hf := ih (ioStep sel initialized prevRaw p l)
    have hscan : ioScan "write_bytes" (l :: ls) =
        match ioScan "write_bytes" ls with
        | some w => some w
        | none => ioScanStep "write_bytes" none l := by
      show (l :: ls).foldl (ioScanStep "write_bytes") none = _
      simp only [List.foldl_cons]
      rw [ioScan_from "write_bytes" ls (ioScanStep "write_bytes" none l)]
      rfl
    rw [hscan]
    cases l with
    | bad =>
      refine ⟨hf.1.trans ?_, hf.2.trans ?_⟩ <;>
        cases hls : ioScan "write_bytes" ls <;> simp [ioScanStep, ioStep]
    | kv key val =>
      cases val with
      | none =>
        refine ⟨hf.1.trans ?_, hf.2.trans ?_⟩ <;>
          cases hls : ioScan "write_bytes" ls <;> simp [ioScanStep, ioStep]
      | some v =>
        by_cases hk : key = "write_bytes"
        · subst hk
          have hk2 : ¬ ("write_bytes" = "read_bytes") := by decide
          refine ⟨hf.1.trans ?_, hf.2.trans ?_⟩ <;>
            cases hls : ioScan "write_bytes" ls <;>
            cases hin : initialized <;>
            simp [ioScanStep, ioStep, hk2, hsel, hin, upd]
        · refine ⟨hf.1.trans ?_, hf.2.trans ?_⟩ <;>
            by_cases hk2 : key = "read_bytes" <;>
            cases hrb : sel .read_bytes <;>
            cases hin : initialized <;>
            cases hls : ioScan "write_bytes" ls <;>
            simp [ioScanStep, ioStep, hk, hk2, hsel, hrb, hin, upd]

/-- Raw counter stored by the io block for read_bytes. -/
theorem ioBlock_snd_rb (sel : Metric → Bool) (initialized : Bool)
    (prevRaw : MMap) (ior : Option (List SrcLine)) (p : MMap × MMap)
    (hp : p.2 .read_bytes = none) :
    (ioBlock sel initialized prevRaw ior p).2 .read_bytes =
      (ioLinesOk sel ior).bind fun lines =>
        if sel .read_bytes then ioScan "read_bytes" lines else none := by
  cases ior with
  | none =>
    cases h : (sel .read_bytes || sel .write_bytes) <;>
      simp [ioBlock, ioLinesOk, h, hp]
  | some lines =>
    cases hrb : sel .read_bytes with
    | true =>
      have hg : (sel .read_bytes || sel .write_bytes) = true := by simp [hrb]
      have hf := (ioFold_rb sel initialized prevRaw hrb lines p).1
      simp only [ioBlock, ioLinesOk, if_pos hg]
      rw [hf]
      cases hs : ioScan "read_bytes" lines <;> simp [hp, hrb, hs]
    | false =>
      cases hwb : sel .write_bytes with
      | true =>
        have hg : (sel .read_bytes || sel .write_bytes) = true := by simp [hwb]
        have hf := (ioFold_rb_notsel sel initialized prevRaw hrb lines p).2
        simp only [ioBlock, ioLinesOk, if_pos hg]
        rw [hf, hp]
        simp [hrb]
      | false =>
        have hg : (sel .read_bytes || sel .write_bytes) = false := by
          simp [hrb, hwb]
        simp [ioBlock, ioLinesOk, hg, hp]

/-- Value emitted by the io block for read_bytes. -/
theorem ioBlock_fst_rb (sel : Metric → Bool) (initialized : Bool)
    (prevRaw : MMap) (ior : Option (List SrcLine)) (p : MMap × MMap)
    (hp : p.1 .read_bytes = none) :
    (ioBlock sel initialized prevRaw ior p).1 .read_bytes =
      ((ioLinesOk sel ior).bind fun lines =>
        if sel .read_bytes then ioScan "read_bytes" lines else none).bind
        fun raw =>
          if initialized then
            some (wrap64 (raw - (prevRaw .read_bytes).getD 0))
          else none := by
  cases ior with
  | none =>
    cases h : (sel .read_bytes || sel .write_bytes) <;>
      simp [ioBlock, ioLinesOk, h, hp]
  | some lines =>
    cases hrb : sel .read_bytes with
    | true =>
      have hg : (sel .read_bytes || sel .write_bytes) = true := by simp [hrb]
      have hf := (ioFold_rb sel initialized prevRaw hrb lines p).2
      simp only [ioBlock, ioLinesOk, if_pos hg]
      rw [hf]
      cases hs : ioScan "read_bytes" lines <;>
        cases hin : initialized <;> simp [hp, hrb, hs, hin]
    | false =>
      cases hwb : sel .write_bytes with
      | true =>
        have hg : (sel .read_bytes || sel .write_bytes) = true := by simp [hwb]
        have hf := (ioFold_rb_notsel sel initialized prevRaw hrb lines p).1
        simp only [ioBlock, ioLinesOk, if_pos hg]
        rw [hf, hp]
        simp [hrb]
      | false =>
        have hg : (sel .read_bytes || sel .write_bytes) = false := by
          simp [hrb, hwb]
        simp [ioBlock, ioLinesOk, hg, hp]

/-- Raw counter stored by the io block for write_bytes. -/
theorem ioBlock_snd_wb (sel : Metric → Bool) (initialized : Bool)
    (prevRaw : MMap) (ior : Option (List SrcLine)) (p : MMap × MMap)
    (hp : p.2 .write_bytes = none) :
    (ioBlock sel initialized prevRaw ior p).2 .write_bytes =
      (ioLinesOk sel ior).bind fun lines =>
        if sel .write_bytes then ioScan "write_bytes" lines else none := by
  cases ior with
  | none =>
    cases h : (sel .read_bytes || sel .write_bytes) <;>
      simp [ioBlock, ioLinesOk, h, hp]
  | some lines =>
    cases hwb : sel .write_bytes with
    | true =>
      have hg : (sel .read_bytes || sel .write_bytes) = true := by simp [hwb]
      have hf := (ioFold_wb sel initialized prevRaw hwb lines p).1
      simp only [ioBlock, ioLinesOk, if_pos hg]
      rw [hf]
      cases hs : ioScan "write_bytes" lines <;> simp [hp, hwb, hs]
    | false =>
      cases hrb : sel .read_bytes with
      | true =>
        have hg : (sel .read_bytes || sel .write_bytes) = true := by simp [hrb]
        have hf := (ioFold_wb_notsel sel initialized prevRaw hwb lines p).2
        simp only [ioBlock, ioLinesOk, if_pos hg]
        rw [hf, hp]
        simp [hwb]
      | false =>
        have hg : (sel .read_bytes || sel .write_bytes) = false := by
          simp [hrb, hwb]
        simp [ioBlock, ioLinesOk, hg, hp]

/-- Value emitted by the io block for write_bytes. -/
theorem ioBlock_fst_wb (sel : Metric → Bool) (initialized : Bool)
    (prevRaw : MMap) (ior : Option (List SrcLine)) (p : MMap × MMap)
    (hp : p.1 .write_bytes = none) :
    (ioBlock sel initialized prevRaw ior p).1 .write_bytes =
      ((ioLinesOk sel ior).bind fun lines =>
        if sel .write_bytes then ioScan "write_bytes" lines else none).bind
        fun raw =>
          if initialized then
            some (wrap64 (raw - (prevRaw .write_bytes).getD 0))
          else none := by
  cases ior with
  | none =>
    cases h : (sel .read_bytes || sel .write_bytes) <;>
      simp [ioBlock, ioLinesOk, h, hp]
  | some lines =>
    cases hwb : sel .write_bytes with
    | true =>
      have hg : (sel .read_bytes || sel .write_bytes) = true := by simp [hwb]
      have hf := (ioFold_wb sel initialized prevRaw hwb lines p).2
      simp only [ioBlock, ioLinesOk, if_pos hg]
      rw [hf]
      cases hs : ioScan "write_bytes" lines <;>
        cases hin : initialized <;> simp [hp, hwb, hs, hin]
    | false =>
      cases hrb : sel .read_bytes with
      | true =>
        have hg : (sel .read_bytes || sel .write_bytes) = true := by simp [hrb]
        have hf := (ioFold_wb_notsel sel initialized prevRaw hwb lines p).1
        simp only [ioBlock, ioLinesOk, if_pos hg]
        rw [hf, hp]
        simp [hwb]
      | false =>
        have hg : (sel .read_bytes || sel .write_bytes) = false := by
          simp [hrb, hwb]
        simp [ioBlock, ioLinesOk, hg, hp]

/-- The fd block never touches `newRaw`. -/
theorem fdBlock_snd (sel : Metric → Bool) (fdr : Option Nat)
    (p : MMap × MMap) : (fdBlock sel fdr p).2 = p.2 := by
  cases fdr with
  | none => cases h : sel .fds <;> simp [fdBlock, h]
  | some n => cases h : sel .fds <;> simp [fdBlock, h]

/-- The fd block leaves metrics other than fds untouched. -/
theorem fdBlock_fst_ne (sel : Metric → Bool) (fdr : Option Nat)
    (p : MMap × MMap) (m : Metric) (h1 : m ≠ .fds) :
    (fdBlock sel fdr p).1 m = p.1 m := by
  cases fdr with
  | none => cases h : sel .fds <;> simp [fdBlock, h]
  | some n => cases h : sel .fds <;> simp [fdBlock, h, upd, h1]

/-- Value emitted by the fd block for fds. -/
theorem fdBlock_fst_fds (sel : Metric → Bool) (fdr : Option Nat)
    (p : MMap × MMap) (hp : p.1 .fds = none) :
    (fdBlock sel fdr p).1 .fds =
      fdr.bind fun n => if sel .fds then some (Int.ofNat n) else none := by
  cases fdr with
  | none => cases h : sel .fds <;> simp [fdBlock, h, hp]
  | some n => cases h : sel .fds <;> simp [fdBlock, h, upd, hp]

/-- The status block leaves metrics other than ctx_switch untouched. -/
theorem statusBlock_ne (sel : Metric → Bool) (initialized : Bool)
    (prevRaw : MMap) (str : Option (List SrcLine)) (p : MMap × MMap)
    (m : Metric) (h1 : m ≠ .ctx_switch) :
    (statusBlock sel initialized prevRaw str p).1 m = p.1 m ∧
    (statusBlock sel initialized prevRaw str p).2 m = p.2 m := by
  cases str with
  | none => cases h : sel .ctx_switch <;> simp [statusBlock, h]
  | some lines =>
    cases h : sel .ctx_switch <;> cases hin : initialized <;>
      simp [statusBlock, h, hin, upd, h1]

/-- Raw counter stored by the status block for ctx_switch. -/
theorem statusBlock_snd_ctx (sel : Metric → Bool) (initialized : Bool)
    (prevRaw : MMap) (str : Option (List SrcLine)) (p : MMap × MMap)
    (hp : p.2 .ctx_switch = none) :
    (statusBlock sel initialized prevRaw str p).2 .ctx_switch =
      (statusLinesOk sel str).bind fun lines =>
        some (wrap64 ((statusCounters lines).1 + (statusCounters lines).2)) := by
  cases str with
  | none => cases h : sel .ctx_switch <;> simp [statusBlock, statusLinesOk, h, hp]
  | some lines =>
    cases h : sel .ctx_switch <;> cases hin : initialized <;>
      simp [statusBlock, statusLinesOk, h, hin, upd, hp]

/-- Value emitted by the status block for ctx_switch. -/
theorem statusBlock_fst_ctx (sel : Metric → Bool) (initialized : Bool)
    (prevRaw : MMap) (str : Option (List SrcLine)) (p : MMap × MMap)
    (hp : p.1 .ctx_switch = none) :
    (statusBlock sel initialized prevRaw str p).1 .ctx_switch =
      ((statusLinesOk sel str).bind fun lines =>
        some (wrap64 ((statusCounters lines).1 + (statusCounters lines).2))).bind
        fun raw =>
          if initialized then
            some (wrap64 (raw - (prevRaw .ctx_switch).getD 0))
          else none := by
  cases str with
  | none => cases h : sel .ctx_switch <;> simp [statusBlock, statusLinesOk, h, hp]
  | some lines =>
    cases h : sel .ctx_switch <;> cases hin : initialized <;>
      simp [statusBlock, statusLinesOk, h, hin, upd, hp]

/-! ### The decomposition theorem: `readPhase` computed per metric -/

/-- The raw map produced by the read phase, per metric: each metric's stored
raw counter depends only on its own source's read. -/
theorem readPhase_snd (sel : Metric → Bool) (initialized : Bool)
    (prevRaw : MMap) (env : TickEnv) (m : Metric) :
    (readPhase sel initialized prevRaw env).2 m = rawAt sel env m := by
  cases m with
  | cpu =>
    unfold readPhase
    rw [(statusBlock_ne sel initialized prevRaw env.statusRead _ _ (by decide)).2,
      fdBlock_snd,
      (ioBlock_ne sel initialized prevRaw env.ioRead _ _ (by decide) (by decide)).2,
      statmBlock_snd,
      statBlock_snd_cpu sel initialized prevRaw env.statRead _ rfl]
    rfl
  | minflt =>
    unfold readPhase
    rw [(statusBlock_ne sel initialized prevRaw env.statusRead _ _ (by decide)).2,
      fdBlock_snd,
      (ioBlock_ne sel initialized prevRaw env.ioRead _ _ (by decide) (by decide)).2,
      statmBlock_snd,
      statBlock_snd_minflt sel initialized prevRaw env.statRead _ rfl]
    rfl
  | majflt =>
    unfold readPhase
    rw [(statusBlock_ne sel initialized prevRaw env.statusRead _ _ (by decide)).2,
      fdBlock_snd,
      (ioBlock_ne sel initialized prevRaw env.ioRead _ _ (by decide) (by decide)).2,
      statmBlock_snd,
      statBlock_snd_majflt sel initialized prevRaw env.statRead _ rfl]
    rfl
  | threads =>
    unfold readPhase
    rw [(statusBlock_ne sel initialized prevRaw env.statusRead _ _ (by decide)).2,
      fdBlock_snd,
      (ioBlock_ne sel initialized prevRaw env.ioRead _ _ (by decide) (by decide)).2,
      statmBlock_snd,
      statBlock_snd_threads]
    rfl
  | vsize =>
    unfold readPhase
    rw [(statusBlock_ne sel initialized prevRaw env.statusRead _ _ (by decide)).2,
      fdBlock_snd,
      (ioBlock_ne sel initialized prevRaw env.ioRead _ _ (by decide) (by decide)).2,
      statmBlock_snd,
      (statBlock_ne sel initialized prevRaw env.statRead _ _
        (by decide) (by decide) (by decide) (by decide)).2]
    rfl
  | rss =>
    unfold readPhase
    rw [(statusBlock_ne sel initialized prevRaw env.statusRead _ _ (by decide)).2,
      fdBlock_snd,
      (ioBlock_ne sel initialized prevRaw env.ioRead _ _ (by decide) (by decide)).2,
      statmBlock_snd,
      (statBlock_ne sel initialized prevRaw env.statRead _ _
        (by decide) (by decide) (by decide) (by decide)).2]
    rfl
  | fds =>
    unfold readPhase
    rw [(statusBlock_ne sel initialized prevRaw env.statusRead _ _ (by decide)).2,
      fdBlock_snd,
      (ioBlock_ne sel initialized prevRaw env.ioRead _ _ (by decide) (by decide)).2,
      statmBlock_snd,
      (statBlock_ne sel initialized prevRaw env.statRead _ _
        (by decide) (by decide) (by decide) (by decide)).2]
    rfl
  | read_bytes =>
    unfold readPhase
    rw [(statusBlock_ne sel initialized prevRaw env.statusRead _ _ (by decide)).2,
      fdBlock_snd]
    have hp : (statmBlock sel env.statmRead
        (statBlock sel initialized prevRaw env.statRead
          (emptyMMap, emptyMMap))).2 .read_bytes = none := by
      rw [statmBlock_snd,
        (statBlock_ne sel initialized prevRaw env.statRead _ _
          (by decide) (by decide) (by decide) (by decide)).2]
      rfl
    rw [ioBlock_snd_rb sel initialized prevRaw env.ioRead _ hp]
    rfl
  | write_bytes =>
    unfold readPhase
    rw [(statusBlock_ne sel initialized prevRaw env.statusRead _ _ (by decide)).2,
      fdBlock_snd]
    have hp : (statmBlock sel env.statmRead
        (statBlock sel initialized prevRaw env.statRead
          (emptyMMap, emptyMMap))).2 .write_bytes = none := by
      rw [statmBlock_snd,
        (statBlock_ne sel initialized prevRaw env.statRead _ _
          (by decide) (by decide) (by decide) (by decide)).2]
      rfl
    rw [ioBlock_snd_wb sel initialized prevRaw env.ioRead _ hp]
    rfl
  | ctx_switch =>
    unfold readPhase
    have hp : (fdBlock sel env.fdRead
        (ioBlock sel initialized prevRaw env.ioRead
          (statmBlock sel env.statmRead
            (statBlock sel initialized prevRaw env.statRead
              (emptyMMap, emptyMMap))))).2 .ctx_switch = none := by
      rw [fdBlock_snd,
        (ioBlock_ne sel initialized prevRaw env.ioRead _ _
          (by decide) (by decide)).2,
        statmBlock_snd,
        (statBlock_ne sel initialized prevRaw env.statRead _ _
          (by decide) (by decide) (by decide) (by decide)).2]
      rfl
    rw [statusBlock_snd_ctx sel initialized prevRaw env.statusRead _ hp]
    rfl

/-- The value map produced by the read phase, per metric: each metric's emitted
value depends only on its own source's read (plus `initialized`/`prevRaw` for
cumulative metrics). -/
theorem readPhase_fst (sel : Metric → Bool) (initialized : Bool)
    (prevRaw : MMap) (env : TickEnv) (m : Metric) :
    (readPhase sel initialized prevRaw env).1 m =
      valueAt sel initialized prevRaw env m := by
  cases m with
  | cpu =>
    unfold readPhase
    rw [(statusBlock_ne sel initialized prevRaw env.statusRead _ _ (by decide)).1,
      fdBlock_fst_ne sel env.fdRead _ _ (by decide),
      (ioBlock_ne sel initialized prevRaw env.ioRead _ _ (by decide) (by decide)).1,
      statmBlock_fst_ne sel env.statmRead _ _ (by decide) (by decide),
      statBlock_fst_cpu sel initialized prevRaw env.statRead _ rfl]
    rfl
  | minflt =>
    unfold readPhase
    rw [(statusBlock_ne sel initialized prevRaw env.statusRead _ _ (by decide)).1,
      fdBlock_fst_ne sel env.fdRead _ _ (by decide),
      (ioBlock_ne sel initialized prevRaw env.ioRead _ _ (by decide) (by decide)).1,
      statmBlock_fst_ne sel env.statmRead _ _ (by decide) (by decide),
      statBlock_fst_minflt sel initialized prevRaw env.statRead _ rfl]
    rfl
  | majflt =>
    unfold readPhase
    rw [(statusBlock_ne sel initialized prevRaw env.statusRead _ _ (by decide)).1,
      fdBlock_fst_ne sel env.fdRead _ _ (by decide),
      (ioBlock_ne sel initialized prevRaw env.ioRead _ _ (by decide) (by decide)).1,
      statmBlock_fst_ne sel env.statmRead _ _ (by decide) (by decide),
      statBlock_fst_majflt sel initialized prevRaw env.statRead _ rfl]
    rfl
  | threads =>
    unfold readPhase
    rw [(statusBlock_ne sel initialized prevRaw env.statusRead _ _ (by decide)).1,
      fdBlock_fst_ne sel env.fdRead _ _ (by decide),
      (ioBlock_ne sel initialized prevRaw env.ioRead _ _ (by decide) (by decide)).1,
      statmBlock_fst_ne sel env.statmRead _ _ (by decide) (by decide),
      statBlock_fst_threads sel initialized prevRaw env.statRead _ rfl]
    rfl
  | vsize =>
    unfold readPhase
    rw [(statusBlock_ne sel initialized prevRaw env.statusRead _ _ (by decide)).1,
      fdBlock_fst_ne sel env.fdRead _ _ (by decide),
      (ioBlock_ne sel initialized prevRaw env.ioRead _ _ (by decide) (by decide)).1]
    have hp : (statBlock sel initialized prevRaw env.statRead
        (emptyMMap, emptyMMap)).1 .vsize = none := by
      rw [(statBlock_ne sel initialized prevRaw env.statRead _ _
        (by decide) (by decide) (by decide) (by decide)).1]
      rfl
    rw [statmBlock_fst_vsize sel env.statmRead _ hp]
    rfl
  | rss =>
    unfold readPhase
    rw [(statusBlock_ne sel initialized prevRaw env.statusRead _ _ (by decide)).1,
      fdBlock_fst_ne sel env.fdRead _ _ (by decide),
      (ioBlock_ne sel initialized prevRaw env.ioRead _ _ (by decide) (by decide)).1]
    have hp : (statBlock sel initialized prevRaw env.statRead
        (emptyMMap, emptyMMap)).1 .rss = none := by
      rw [(statBlock_ne sel initialized prevRaw env.statRead _ _
        (by decide) (by decide) (by decide) (by decide)).1]
      rfl
    rw [statmBlock_fst_rss sel env.statmRead _ hp]
    rfl
  | fds =>
    unfold readPhase
    rw [(statusBlock_ne sel initialized prevRaw env.statusRead _ _ (by decide)).1]
    have hp : (ioBlock sel initialized prevRaw env.ioRead
        (statmBlock sel env.statmRead
          (statBlock sel initialized prevRaw env.statRead
            (emptyMMap, emptyMMap)))).1 .fds = none := by
      rw [(ioBlock_ne sel initialized prevRaw env.ioRead _ _
          (by decide) (by decide)).1,
        statmBlock_fst_ne sel env.statmRead _ _ (by decide) (by decide),
        (statBlock_ne sel initialized prevRaw env.statRead _ _
          (by decide) (by decide) (by decide) (by decide)).1]
      rfl
    rw [fdBlock_fst_fds sel env.fdRead _ hp]
    rfl
  | read_bytes =>
    unfold readPhase
    rw [(statusBlock_ne sel initialized prevRaw env.statusRead _ _ (by decide)).1,
      fdBlock_fst_ne sel env.fdRead _ _ (by decide)]
    have hp : (statmBlock sel env.statmRead
        (statBlock sel initialized prevRaw env.statRead
          (emptyMMap, emptyMMap))).1 .read_bytes = none := by
      rw [statmBlock_fst_ne sel env.statmRead _ _ (by decide) (by decide),
        (statBlock_ne sel initialized prevRaw env.statRead _ _
          (by decide) (by decide) (by decide) (by decide)).1]
      rfl
    rw [ioBlock_fst_rb sel initialized prevRaw env.ioRead _ hp]
    rfl
  | write_bytes =>
    unfold readPhase
    rw [(statusBlock_ne sel initialized prevRaw env.statusRead _ _ (by decide)).1,
      fdBlock_fst_ne sel env.fdRead _ _ (by decide)]
    have hp : (statmBlock sel env.statmRead
        (statBlock sel initialized prevRaw env.statRead
          (emptyMMap, emptyMMap))).1 .write_bytes = none := by
      rw [statmBlock_fst_ne sel env.statmRead _ _ (by decide) (by decide),
        (statBlock_ne sel initialized prevRaw env.statRead _ _
          (by decide) (by decide) (by decide) (by decide)).1]
      rfl
    rw [ioBlock_fst_wb sel initialized prevRaw env.ioRead _ hp]
    rfl
  | ctx_switch =>
    unfold readPhase
    have hp : (fdBlock sel env.fdRead
        (ioBlock sel initialized prevRaw env.ioRead
          (statmBlock sel env.statmRead
            (statBlock sel initialized prevRaw env.statRead
              (emptyMMap, emptyMMap))))).1 .ctx_switch = none := by
      rw [fdBlock_fst_ne sel env.fdRead _ _ (by decide),
        (ioBlock_ne sel initialized prevRaw env.ioRead _ _
          (by decide) (by decide)).1,
        statmBlock_fst_ne sel env.statmRead _ _ (by decide) (by decide),
        (statBlock_ne sel initialized prevRaw env.statRead _ _
          (by decide) (by decide) (by decide) (by decide)).1]
      rfl
    rw [statusBlock_fst_ctx sel initialized prevRaw env.statusRead _ hp]
    rfl

/-! ### Structure of the commit step -/

theorem trim_length (l : List Sample) :
    (trim l).length = min l.length maxSamples := by
  unfold trim
  split
  · rw [List.length_drop]
    omega
  · omega

theorem trim_eq_drop (l : List Sample) :
    trim l = l.drop (l.length - maxSamples) := by
  unfold trim
  split
  · rfl
  · have : l.length - maxSamples = 0 := by omega
    rw [this, List.drop_zero]

theorem trim_append_getLast (l : List Sample) (a : Sample) :
    (trim (l ++ [a])).getLast? = some a := by
  rw [trim_eq_drop]
  have hlen : (l ++ [a]).length = l.length + 1 := by simp
  have hle : (l ++ [a]).length - maxSamples ≤ l.length := by
    rw [hlen]; unfold maxSamples; omega
  rw [List.drop_append_of_le_length hle, List.getLast?_concat]

/-- Every tick appends exactly the tick's sample (after trimming). -/
theorem collectOnce_samples (sel : Metric → Bool) (env : TickEnv)
    (pst : ProcessStats) :
    (collectOnce sel env pst).samples =
      trim (pst.samples ++ [tickSample sel env pst]) := by
  unfold collectOnce tickSample
  split <;> rfl

theorem collectOnce_getLast (sel : Metric → Bool) (env : TickEnv)
    (pst : ProcessStats) :
    (collectOnce sel env pst).samples.getLast? =
      some (tickSample sel env pst) := by
  rw [collectOnce_samples, trim_append_getLast]

theorem collectOnce_length (sel : Metric → Bool) (env : TickEnv)
    (pst : ProcessStats) :
    (collectOnce sel env pst).samples.length =
      min (pst.samples.length + 1) maxSamples := by
  rw [collectOnce_samples, trim_length]
  simp

/-- `initialized` after a tick: false on absence, true when the pid
resolved. -/
theorem collectOnce_initialized (sel : Metric → Bool) (env : TickEnv)
    (pst : ProcessStats) :
    (collectOnce sel env pst).initialized = (env.pid ≠ 0 : Bool) := by
  unfold collectOnce
  split <;> simp_all

/-- `prevRaw` after a tick, pointwise: untouched on absence; otherwise each
metric's entry is overwritten exactly when the tick read a raw value for it. -/
theorem collectOnce_prevRaw (sel : Metric → Bool) (env : TickEnv)
    (pst : ProcessStats) (m : Metric) :
    (collectOnce sel env pst).prevRaw m =
      if env.pid = 0 then pst.prevRaw m
      else
        match rawAt sel env m with
        | some v => some v
        | none => pst.prevRaw m := by
  unfold collectOnce
  split
  · rfl
  · simp only [readPhase_snd]

/-- The value map of the sample a resolved-pid tick emits. -/
theorem collectOnce_lastValue (sel : Metric → Bool) (env : TickEnv)
    (pst : ProcessStats) (m : Metric) (hpid : env.pid ≠ 0) :
    lastValue (collectOnce sel env pst) m =
      some (valueAt sel pst.initialized pst.prevRaw env m) := by
  unfold lastValue
  rw [collectOnce_getLast]
  unfold tickSample
  rw [if_neg hpid]
  simp only [Option.map_some']
  rw [readPhase_fst]

/-- The value map of the sample an absence tick emits is empty. -/
theorem collectOnce_lastValue_absent (sel : Metric → Bool) (env : TickEnv)
    (pst : ProcessStats) (m : Metric) (hpid : env.pid = 0) :
    lastValue (collectOnce sel env pst) m = some none := by
  unfold lastValue
  rw [collectOnce_getLast]
  unfold tickSample
  rw [if_pos hpid]
  rfl

/-! ### Helper lemmas on cumulative emission -/

/-- For a cumulative metric the emitted value is the read raw, wrapped-deltaed
against `prevRaw` (a missing entry reads as 0), gated only on `initialized`. -/
theorem valueAt_cumulative (sel : Metric → Bool) (initialized : Bool)
    (prevRaw : MMap) (env : TickEnv) (m : Metric)
    (hm : metricKind m = .cumulativeDelta) :
    valueAt sel initialized prevRaw env m =
      (rawAt sel env m).bind fun raw =>
        if initialized then some (wrap64 (raw - (prevRaw m).getD 0))
        else none := by
  cases m <;> first | rfl | exact absurd hm (by decide)

/-- Cumulative metric, not initialized: omitted. -/
theorem lastValue_cum_not_init (sel : Metric → Bool) (env : TickEnv)
    (pst : ProcessStats) (m : Metric) (hpid : env.pid ≠ 0)
    (hm : metricKind m = .cumulativeDelta) (hi : pst.initialized = false) :
    lastValue (collectOnce sel env pst) m = some none := by
  rw [collectOnce_lastValue sel env pst m hpid,
    valueAt_cumulative sel pst.initialized pst.prevRaw env m hm, hi]
  cases rawAt sel env m <;> simp

/-- Cumulative metric, no raw value read this tick: omitted. -/
theorem lastValue_cum_no_raw (sel : Metric → Bool) (env : TickEnv)
    (pst : ProcessStats) (m : Metric) (hpid : env.pid ≠ 0)
    (hm : metricKind m = .cumulativeDelta) (hr : rawAt sel env m = none) :
    lastValue (collectOnce sel env pst) m = some none := by
  rw [collectOnce_lastValue sel env pst m hpid,
    valueAt_cumulative sel pst.initialized pst.prevRaw env m hm, hr]
  rfl

/-- Cumulative metric, initialized with a raw value read: wrapped delta
against the previous raw (0 when no entry). -/
theorem lastValue_cum_delta (sel : Metric → Bool) (env : TickEnv)
    (pst : ProcessStats) (m : Metric) (r : Int) (hpid : env.pid ≠ 0)
    (hm : metricKind m = .cumulativeDelta) (hr : rawAt sel env m = some r)
    (hi : pst.initialized = true) :
    lastValue (collectOnce sel env pst) m =
      some (some (wrap64 (r - (pst.prevRaw m).getD 0))) := by
  rw [collectOnce_lastValue sel env pst m hpid,
    valueAt_cumulative sel pst.initialized pst.prevRaw env m hm, hr, hi]
  rfl

/-- `wrap64` is the identity on the `int64` range. -/
theorem wrap64_eq_self (n : Int) (h1 : -(2 ^ 63) ≤ n) (h2 : n < 2 ^ 63) :
    wrap64 n = n := by
  have e1 : (2 : Int) ^ 63 = 9223372036854775808 := by norm_num
  have e2 : (2 : Int) ^ 64 = 18446744073709551616 := by norm_num
  rw [e1] at h1 h2
  unfold wrap64
  rw [e1, e2]
  omega

theorem failSrc_pid (s : Src) (env : TickEnv) : (failSrc s env).pid = env.pid := by
  cases s <;> rfl

/-- A metric's emitted value does not depend on the read of a different
source. -/
theorem valueAt_failSrc (sel : Metric → Bool) (initialized : Bool)
    (prevRaw : MMap) (env : TickEnv) (s : Src) (m : Metric)
    (hm : metricSource m ≠ s) :
    valueAt sel initialized prevRaw (failSrc s env) m =
      valueAt sel initialized prevRaw env m := by
  cases s <;> cases m <;> first | rfl | exact absurd rfl hm

/-- When every source read fails, no value is emitted for any metric. -/
theorem valueAt_allfail (sel : Metric → Bool) (initialized : Bool)
    (prevRaw : MMap) (env : TickEnv) (h : allReadsFail env) (m : Metric) :
    valueAt sel initialized prevRaw env m = none := by
  obtain ⟨h1, h2, h3, h4, h5⟩ := h
  cases m <;>
    simp [valueAt, metricKind, rawAt, statFieldsOk, statmFieldsOk, ioLinesOk,
      statusLinesOk, h1, h2, h3, h4, h5]

/-- When every source read fails, no raw counter is stored for any metric. -/
theorem rawAt_allfail (sel : Metric → Bool) (env : TickEnv)
    (h : allReadsFail env) (m : Metric) : rawAt sel env m = none := by
  obtain ⟨h1, h2, h3, h4, h5⟩ := h
  cases m <;>
    simp [rawAt, statFieldsOk, statmFieldsOk, ioLinesOk, statusLinesOk,
      h1, h2, h3, h4, h5]

/-- Through any run of resolved-pid ticks on which the metric's raw value was
never read, `initialized` stays true and the stored previous raw survives. -/
theorem runTicks_gap (sel : Metric → Bool) (m : Metric) (r1 : Int) :
    ∀ (envs : List TickEnv) (pst : ProcessStats),
      pst.initialized = true → pst.prevRaw m = some r1 →
      (∀ e ∈ envs, e.pid ≠ 0 ∧ rawAt sel e m = none) →
      (runTicks sel envs pst).initialized = true ∧
      (runTicks sel envs pst).prevRaw m = some r1 := by
  intro envs
  induction envs with
  | nil => exact fun pst hi hp _ => ⟨hi, hp⟩
  | cons e es ih =>
    intro pst hi hp h
    have he := h e (List.mem_cons_self e es)
    have hstep_init : (collectOnce sel e pst).initialized = true := by
      rw [collectOnce_initialized]
      simp [he.1]
    have hstep_prev : (collectOnce sel e pst).prevRaw m = some r1 := by
      rw [collectOnce_prevRaw, if_neg he.1, he.2]
      exact hp
    have := ih (collectOnce sel e pst) hstep_init hstep_prev
      (fun e' he' => h e' (List.mem_cons_of_mem e he'))
    exact this

/-! ### Claims -/

/-- Claim C1 counterexample: after a first resolved-pid tick on which every
read failed, `initialized` is true while `previousRaw` has no cpu entry; the
next tick reads raw cpu 5 and emits the value 5 (the Go map read defaults the
missing previous entry to 0) instead of omitting the metric as the claim
requires. -/
theorem claim1_counterexample :
    (collectOnce selCpu envNoReads pst0).initialized = true ∧
    (collectOnce selCpu envNoReads pst0).prevRaw .cpu = none ∧
    metricKind .cpu = .cumulativeDelta ∧
    lastValue (collectOnce selCpu (envStat 1 (some 5) (some 0))
      (collectOnce selCpu envNoReads pst0)) .cpu = some (some 5) := by
  decide

/-- Claim C1 (amended): for a cumulative metric on a resolved-pid tick, when
`initialized` is false the metric is omitted; when no raw value was read this
tick the metric is omitted; and when `initialized` is true and a raw value `r`
was read, the emitted value is the int64-wrapped difference between `r` and
the previous raw entry, a missing entry being read as 0 (the Go map
default). -/
theorem claim1_amended (sel : Metric → Bool) (env : TickEnv)
    (pst : ProcessStats) (m : Metric) (hpid : env.pid ≠ 0)
    (hm : metricKind m = .cumulativeDelta) :
    (pst.initialized = false →
      lastValue (collectOnce sel env pst) m = some none) ∧
    (rawAt sel env m = none →
      lastValue (collectOnce sel env pst) m = some none) ∧
    (∀ r, rawAt sel env m = some r → pst.initialized = true →
      lastValue (collectOnce sel env pst) m =
        some (some (wrap64 (r - (pst.prevRaw m).getD 0)))) :=
  ⟨fun hi => lastValue_cum_not_init sel env pst m hpid hm hi,
   fun hr => lastValue_cum_no_raw sel env pst m hpid hm hr,
   fun r hr hi => lastValue_cum_delta sel env pst m r hpid hm hr hi⟩

/-- Claim C1 amended, witnessed at concrete inputs: initialized with previous
raw cpu 2 and a raw cpu read of 5, the emitted cpu value is wrap64 (5 - 2). -/
theorem claim1_witness :
    lastValue (collectOnce selCpu (envStat 1 (some 5) (some 0)) psPrev2) .cpu =
      some (some (wrap64 (5 - 2))) :=
  (claim1_amended selCpu (envStat 1 (some 5) (some 0)) psPrev2 .cpu
    (by decide) (by decide)).2.2 5 (by decide) rfl

/-- Claim C2 counterexample: with threads selected, a stat read whose token at
index 19 fails to parse yields an emitted entry threads = 0 (Go's ParseInt
returns 0 on error and the code ignores the error), not an omission. -/
theorem claim2_counterexample :
    (List.replicate 20 (none : Option Int)).getD 19 none = none ∧
    lastValue (collectOnce selThreads envBadTokens pst0) .threads =
      some (some 0) := by
  decide

/-- Claim C2 (amended): only the io source treats a parse failure as absence
(a line whose value fails to parse is skipped, so when no line for the key
parses the metric is omitted); in the stat and statm sources a field that
fails to parse is read as 0 — absolute metrics emit an entry 0 and cumulative
metrics compute their raw and delta from 0 — and in the status source an
unparseable counter likewise contributes 0. -/
theorem claim2_amended (sel : Metric → Bool) (env : TickEnv)
    (pst : ProcessStats) (hpid : env.pid ≠ 0) :
    (∀ lines, env.ioRead = some lines → ioScan "read_bytes" lines = none →
      lastValue (collectOnce sel env pst) .read_bytes = some none) ∧
    (∀ fields, env.statRead = some fields → 20 ≤ fields.length →
      sel .threads = true → fields.getD 19 none = none →
      lastValue (collectOnce sel env pst) .threads = some (some 0)) ∧
    (∀ sm, env.statmRead = some sm → 2 ≤ sm.length → sel .vsize = true →
      sm.getD 0 none = none →
      lastValue (collectOnce sel env pst) .vsize = some (some 0)) ∧
    (∀ fields, env.statRead = some fields → 20 ≤ fields.length →
      sel .cpu = true → fields.getD 13 none = none →
      fields.getD 14 none = none → pst.initialized = true →
      lastValue (collectOnce sel env pst) .cpu =
        some (some (wrap64 (wrap64 (0 + 0) - (pst.prevRaw .cpu).getD 0)))) ∧
    (env.statusRead = some [SrcLine.kv "voluntary_ctxt_switches:" none] →
      sel .ctx_switch = true → pst.initialized = true →
      lastValue (collectOnce sel env pst) .ctx_switch =
        some (some (wrap64 (wrap64 (0 + 0) -
          (pst.prevRaw .ctx_switch).getD 0)))) := by
  refine ⟨?_, ?_, ?_, ?_, ?_⟩
  · intro lines hio hscan
    have hr : rawAt sel env .read_bytes = none := by
      simp only [rawAt, ioLinesOk, hio]
      split <;> simp [hscan]
    exact lastValue_cum_no_raw sel env pst .read_bytes hpid (by decide) hr
  · intro fields hf hl hs hv
    rw [collectOnce_lastValue sel env pst .threads hpid]
    simp only [List.getD, List.get?_eq_getElem?] at hv
    simp [valueAt, metricKind, statFieldsOk, hf, hl, hs, hv]
  · intro sm hf hl hs hv
    rw [collectOnce_lastValue sel env pst .vsize hpid]
    simp only [List.getD, List.get?_eq_getElem?] at hv
    simp [valueAt, metricKind, statmFieldsOk, hf, hl, hs, hv]
  · intro fields hf hl hs h13 h14 hinit
    have hr : rawAt sel env .cpu = some (wrap64 (0 + 0)) := by
      simp only [List.getD, List.get?_eq_getElem?] at h13 h14
      simp [rawAt, statFieldsOk, hf, hl, hs, h13, h14]
    exact lastValue_cum_delta sel env pst .cpu (wrap64 (0 + 0)) hpid
      (by decide) hr hinit
  · intro hl hs hinit
    have hsc : statusCounters [SrcLine.kv "voluntary_ctxt_switches:" none] =
        (0, 0) := by decide
    have hr : rawAt sel env .ctx_switch = some (wrap64 (0 + 0)) := by
      simp [rawAt, statusLinesOk, hl, hs, hsc]
    exact lastValue_cum_delta sel env pst .ctx_switch (wrap64 (0 + 0)) hpid
      (by decide) hr hinit

/-- Claim C2 amended, witnessed at concrete inputs: an io read whose only
read_bytes line fails to parse omits read_bytes; an unparseable threads token
emits 0. -/
theorem claim2_witness :
    lastValue (collectOnce selAll
      ⟨1, 0, none, none, some [SrcLine.kv "read_bytes" none], none, none⟩
      pst0) .read_bytes = some none ∧
    lastValue (collectOnce selAll envBadTokens pst0) .threads =
      some (some 0) :=
  ⟨(claim2_amended selAll
      ⟨1, 0, none, none, some [SrcLine.kv "read_bytes" none], none, none⟩
      pst0 (by decide)).1 [SrcLine.kv "read_bytes" none] rfl (by decide),
   (claim2_amended selAll envBadTokens pst0 (by decide)).2.1
      (List.replicate 20 none) rfl (by decide) rfl (by decide)⟩

/-- Claim C3: every tick appends one sample and immediately re-trims: the
resulting sequence is exactly the most-recent-300 suffix of `old ++ [new]`
(in order, oldest evicted first), and its length never exceeds 300. -/
theorem claim3 (sel : Metric → Bool) (env : TickEnv) (pst : ProcessStats) :
    (collectOnce sel env pst).samples =
      (pst.samples ++ [tickSample sel env pst]).drop
        ((pst.samples ++ [tickSample sel env pst]).length - maxSamples) ∧
    (collectOnce sel env pst).samples.length ≤ maxSamples := by
  constructor
  · rw [collectOnce_samples, trim_eq_drop]
  · rw [collectOnce_length]
    exact Nat.min_le_right _ _

/-- Claim C4 counterexample: two consecutive successful cpu observations with
raw values r1 = -2^63 (a parseable int64) and r2 = 0; the emitted delta is
the wrapped value -2^63, not r2 - r1 = 2^63. -/
theorem claim4_counterexample :
    rawAt selCpu (envStat 0 (some (-(2 ^ 63))) (some 0)) .cpu =
      some (-(2 ^ 63)) ∧
    rawAt selCpu (envStat 1 (some 0) (some 0)) .cpu = some 0 ∧
    lastValue (collectOnce selCpu (envStat 1 (some 0) (some 0))
      (collectOnce selCpu (envStat 0 (some (-(2 ^ 63))) (some 0)) pst0)) .cpu =
      some (some (-(2 ^ 63))) ∧
    ¬ ((0 : Int) - -(2 ^ 63) = -(2 ^ 63)) := by
  decide

/-- Claim C4 (amended): two consecutive successful observations of a
cumulative metric with raw values r1 then r2 make the second tick emit the
int64-wrapped difference wrap64 (r2 - r1); this equals r2 - r1 exactly
whenever the difference lies in the int64 range (always the case for the
kernel's nonnegative monotonic counters). -/
theorem claim4_amended (sel : Metric → Bool) (env1 env2 : TickEnv)
    (pst : ProcessStats) (m : Metric) (r1 r2 : Int)
    (hp1 : env1.pid ≠ 0) (hp2 : env2.pid ≠ 0)
    (hm : metricKind m = .cumulativeDelta)
    (h1 : rawAt sel env1 m = some r1) (h2 : rawAt sel env2 m = some r2) :
    lastValue (collectOnce sel env2 (collectOnce sel env1 pst)) m =
      some (some (wrap64 (r2 - r1))) ∧
    (-(2 ^ 63) ≤ r2 - r1 → r2 - r1 < 2 ^ 63 →
      lastValue (collectOnce sel env2 (collectOnce sel env1 pst)) m =
        some (some (r2 - r1))) := by
  have hi1 : (collectOnce sel env1 pst).initialized = true := by
    rw [collectOnce_initialized]
    simp [hp1]
  have hprev : (collectOnce sel env1 pst).prevRaw m = some r1 := by
    rw [collectOnce_prevRaw, if_neg hp1, h1]
  have hmain := lastValue_cum_delta sel env2 (collectOnce sel env1 pst) m r2
    hp2 hm h2 hi1
  rw [hprev] at hmain
  simp only [Option.getD_some] at hmain
  exact ⟨hmain, fun ha hb => by
    rw [hmain, wrap64_eq_self (r2 - r1) ha hb]⟩

/-- Claim C4 amended, witnessed at concrete inputs: raw cpu 2 then 5 over two
ticks from the startup state; the second tick emits exactly 3 = 5 - 2. -/
theorem claim4_witness :
    lastValue (collectOnce selCpu (envStat 1 (some 5) (some 0))
      (collectOnce selCpu (envStat 0 (some 2) (some 0)) pst0)) .cpu =
      some (some (5 - 2)) :=
  (claim4_amended selCpu (envStat 0 (some 2) (some 0))
    (envStat 1 (some 5) (some 0)) pst0 .cpu 2 5 (by decide) (by decide)
    (by decide) (by decide) (by decide)).2 (by decide) (by decide)

/-- Claim C5: an absence tick (pid resolves to 0) followed by a successful
tick omits every cumulative metric on the successful tick, whatever raw value
that tick reads. -/
theorem claim5 (sel : Metric → Bool) (env1 env2 : TickEnv)
    (pst : ProcessStats) (m : Metric) (hp1 : env1.pid = 0)
    (hp2 : env2.pid ≠ 0) (hm : metricKind m = .cumulativeDelta) :
    lastValue (collectOnce sel env2 (collectOnce sel env1 pst)) m =
      some none := by
  have hi : (collectOnce sel env1 pst).initialized = false := by
    rw [collectOnce_initialized]
    simp [hp1]
  exact lastValue_cum_not_init sel env2 (collectOnce sel env1 pst) m hp2 hm hi

/-- Claim C5, witnessed at concrete inputs: absence, then a successful cpu
read of 5, emits no cpu value even though a previous raw entry exists. -/
theorem claim5_witness :
    lastValue (collectOnce selCpu (envStat 1 (some 5) (some 0))
      (collectOnce selCpu envAbsent psPrev2)) .cpu = some none :=
  claim5 selCpu envAbsent (envStat 1 (some 5) (some 0)) psPrev2 .cpu rfl
    (by decide) (by decide)

/-- Claim C6: an absence tick appends a sample with an empty value map, sets
`initialized` to false, and leaves every `previousRaw` entry exactly
unchanged. -/
theorem claim6 (sel : Metric → Bool) (env : TickEnv) (pst : ProcessStats)
    (hpid : env.pid = 0) :
    (∀ m, lastValue (collectOnce sel env pst) m = some none) ∧
    (collectOnce sel env pst).initialized = false ∧
    (∀ m, (collectOnce sel env pst).prevRaw m = pst.prevRaw m) := by
  refine ⟨fun m => collectOnce_lastValue_absent sel env pst m hpid, ?_,
    fun m => ?_⟩
  · rw [collectOnce_initialized]
    simp [hpid]
  · rw [collectOnce_prevRaw, if_pos hpid]

/-- Claim C6, witnessed at a concrete absence tick from an initialized
state. -/
theorem claim6_witness :
    lastValue (collectOnce selCpu envAbsent psPrev2) .cpu = some none ∧
    (collectOnce selCpu envAbsent psPrev2).initialized = false ∧
    (collectOnce selCpu envAbsent psPrev2).prevRaw .cpu = some 2 := by
  have h := claim6 selCpu envAbsent psPrev2 rfl
  exact ⟨h.1 .cpu, h.2.1, by rw [h.2.2 .cpu]; decide⟩

/-- Claim C7: a failed read of one kernel source only loses that source's
metrics for the tick: every metric drawn from a different source gets exactly
the value it gets with the successful read, and the tick still appends its
sample. -/
theorem claim7 (sel : Metric → Bool) (env : TickEnv) (pst : ProcessStats)
    (src : Src) (m : Metric) (hpid : env.pid ≠ 0)
    (hm : metricSource m ≠ src) :
    lastValue (collectOnce sel (failSrc src env) pst) m =
      lastValue (collectOnce sel env pst) m ∧
    (collectOnce sel (failSrc src env) pst).samples.length =
      min (pst.samples.length + 1) maxSamples ∧
    (collectOnce sel (failSrc src env) pst).samples.getLast? =
      some (tickSample sel (failSrc src env) pst) := by
  have hpid' : (failSrc src env).pid ≠ 0 := by
    rw [failSrc_pid]
    exact hpid
  refine ⟨?_, collectOnce_length _ _ _, collectOnce_getLast _ _ _⟩
  rw [collectOnce_lastValue sel (failSrc src env) pst m hpid',
    collectOnce_lastValue sel env pst m hpid,
    valueAt_failSrc sel pst.initialized pst.prevRaw env src m hm]

/-- Claim C7, witnessed at a concrete tick: failing the stat read leaves the
emitted rss (a statm metric) unchanged. -/
theorem claim7_witness :
    lastValue (collectOnce selAll (failSrc .stat envRich) pst0) .rss =
      lastValue (collectOnce selAll envRich pst0) .rss :=
  (claim7 selAll envRich pst0 .stat .rss (by decide) (by decide)).1

/-- Claim C8: absolute metrics (threads, vsize, rss, fds) pass the
successfully read raw value through unchanged; the state is arbitrary and the
last conjunct states the independence from `initialized`/`previousRaw`
directly. -/
theorem claim8 (sel : Metric → Bool) (env : TickEnv) (pst : ProcessStats)
    (hpid : env.pid ≠ 0) :
    (∀ fields v, env.statRead = some fields → 20 ≤ fields.length →
      sel .threads = true → fields.getD 19 none = some v →
      lastValue (collectOnce sel env pst) .threads = some (some v)) ∧
    (∀ sm v, env.statmRead = some sm → 2 ≤ sm.length → sel .vsize = true →
      sm.getD 0 none = some v →
      lastValue (collectOnce sel env pst) .vsize = some (some v)) ∧
    (∀ sm v, env.statmRead = some sm → 2 ≤ sm.length → sel .rss = true →
      sm.getD 1 none = some v →
      lastValue (collectOnce sel env pst) .rss = some (some v)) ∧
    (∀ n, env.fdRead = some n → sel .fds = true →
      lastValue (collectOnce sel env pst) .fds = some (some (Int.ofNat n))) ∧
    (∀ (m : Metric) (pst' : ProcessStats), metricKind m = .absolute →
      lastValue (collectOnce sel env pst) m =
        lastValue (collectOnce sel env pst') m) := by
  refine ⟨?_, ?_, ?_, ?_, ?_⟩
  · intro fields v hf hl hs hv
    rw [collectOnce_lastValue sel env pst .threads hpid]
    simp only [List.getD, List.get?_eq_getElem?] at hv
    simp [valueAt, metricKind, statFieldsOk, hf, hl, hs, hv]
  · intro sm v hf hl hs hv
    rw [collectOnce_lastValue sel env pst .vsize hpid]
    simp only [List.getD, List.get?_eq_getElem?] at hv
    simp [valueAt, metricKind, statmFieldsOk, hf, hl, hs, hv]
  · intro sm v hf hl hs hv
    rw [collectOnce_lastValue sel env pst .rss hpid]
    simp only [List.getD, List.get?_eq_getElem?] at hv
    simp [valueAt, metricKind, statmFieldsOk, hf, hl, hs, hv]
  · intro n hf hs
    rw [collectOnce_lastValue sel env pst .fds hpid]
    simp [valueAt, metricKind, hf, hs]
  · intro m pst' hm
    rw [collectOnce_lastValue sel env pst m hpid,
      collectOnce_lastValue sel env pst' m hpid]
    cases m <;> first | rfl | exact absurd hm (by decide)

/-- Claim C8, witnessed at a concrete tick: threads 7, vsize 11, rss 12,
fds 4 are all passed through verbatim. -/
theorem claim8_witness :
    lastValue (collectOnce selAll envRich pst0) .threads = some (some 7) ∧
    lastValue (collectOnce selAll envRich pst0) .vsize = some (some 11) ∧
    lastValue (collectOnce selAll envRich pst0) .rss = some (some 12) ∧
    lastValue (collectOnce selAll envRich pst0) .fds =
      some (some (Int.ofNat 4)) := by
  have h := claim8 selAll envRich pst0 (by decide)
  exact ⟨h.1 _ 7 rfl (by decide) rfl (by decide),
    h.2.1 _ 11 rfl (by decide) rfl (by decide),
    h.2.2.1 _ 12 rfl (by decide) rfl (by decide),
    h.2.2.2.1 4 rfl rfl⟩

/-- Claim C9: every tick appends exactly one sample (the tick's sample becomes
the last element, the length grows by one up to the 300 cap); a resolved pid
sets `initialized` to true even when every source read failed, in which case
the appended value map is empty and `previousRaw` is untouched. -/
theorem claim9 (sel : Metric → Bool) (env : TickEnv) (pst : ProcessStats) :
    (collectOnce sel env pst).samples.getLast? =
      some (tickSample sel env pst) ∧
    (collectOnce sel env pst).samples.length =
      min (pst.samples.length + 1) maxSamples ∧
    (env.pid ≠ 0 → (collectOnce sel env pst).initialized = true) ∧
    (env.pid ≠ 0 → allReadsFail env →
      (∀ m, (tickSample sel env pst).values m = none) ∧
      (∀ m, (collectOnce sel env pst).prevRaw m = pst.prevRaw m)) := by
  refine ⟨collectOnce_getLast _ _ _, collectOnce_length _ _ _, ?_, ?_⟩
  · intro h
    rw [collectOnce_initialized]
    simp [h]
  · intro h hfail
    constructor
    · intro m
      unfold tickSample
      rw [if_neg h]
      show (readPhase sel pst.initialized pst.prevRaw env).1 m = none
      rw [readPhase_fst]
      exact valueAt_allfail sel pst.initialized pst.prevRaw env hfail m
    · intro m
      rw [collectOnce_prevRaw, if_neg h, rawAt_allfail sel env hfail m]

/-- Claim C9, witnessed at a concrete resolved-pid tick with every read
failing: `initialized` becomes true, the value map is empty, `previousRaw`
keeps its cpu entry. -/
theorem claim9_witness :
    (collectOnce selAll envNoReads psPrev2).initialized = true ∧
    (tickSample selAll envNoReads psPrev2).values .cpu = none ∧
    (collectOnce selAll envNoReads psPrev2).prevRaw .cpu = some 2 := by
  have h := claim9 selAll envNoReads psPrev2
  refine ⟨h.2.2.1 (by decide),
    (h.2.2.2 (by decide) ⟨rfl, rfl, rfl, rfl, rfl⟩).1 .cpu, ?_⟩
  rw [(h.2.2.2 (by decide) ⟨rfl, rfl, rfl, rfl, rfl⟩).2 .cpu]
  decide

/-- Claim C10: `previousRaw` entries are never removed — an entry changes only
on a resolved-pid tick that read a new raw value for that metric — and after
any run of resolved-pid ticks on which a cumulative metric's read kept
failing, the next successful read emits the wrapped delta against the raw
value stored before the gap instead of omitting the metric. -/
theorem claim10 (sel : Metric → Bool) (env : TickEnv) (pst : ProcessStats) :
    (∀ m v, pst.prevRaw m = some v →
      ∃ w, (collectOnce sel env pst).prevRaw m = some w) ∧
    (∀ m, (collectOnce sel env pst).prevRaw m ≠ pst.prevRaw m →
      env.pid ≠ 0 ∧ (collectOnce sel env pst).prevRaw m = rawAt sel env m) ∧
    (∀ (envs : List TickEnv) (m : Metric) (r1 r2 : Int) (env2 : TickEnv),
      metricKind m = .cumulativeDelta →
      pst.initialized = true → pst.prevRaw m = some r1 →
      (∀ e ∈ envs, e.pid ≠ 0 ∧ rawAt sel e m = none) →
      env2.pid ≠ 0 → rawAt sel env2 m = some r2 →
      lastValue (collectOnce sel env2 (runTicks sel envs pst)) m =
        some (some (wrap64 (r2 - r1)))) := by
  refine ⟨?_, ?_, ?_⟩
  · intro m v hv
    rw [collectOnce_prevRaw]
    by_cases hp : env.pid = 0
    · rw [if_pos hp]
      exact ⟨v, hv⟩
    · rw [if_neg hp]
      cases hr : rawAt sel env m with
      | some w => exact ⟨w, rfl⟩
      | none => exact ⟨v, hv⟩
  · intro m hne
    rw [collectOnce_prevRaw] at hne ⊢
    by_cases hp : env.pid = 0
    · rw [if_pos hp] at hne
      exact absurd rfl hne
    · rw [if_neg hp] at hne ⊢
      refine ⟨hp, ?_⟩
      cases hr : rawAt sel env m with
      | some w => rfl
      | none =>
        rw [hr] at hne
        exact absurd rfl hne
  · intro envs m r1 r2 env2 hm hi hp hgap hp2 hr2
    obtain ⟨hi', hp'⟩ := runTicks_gap sel m r1 envs pst hi hp hgap
    have h := lastValue_cum_delta sel env2 (runTicks sel envs pst) m r2
      hp2 hm hr2 hi'
    rw [hp'] at h
    simpa using h

/-- Claim C10, witnessed at concrete inputs: the previous raw cpu 2 survives a
failed-read tick, and the next successful read 5 emits wrap64 (5 - 2). -/
theorem claim10_witness :
    lastValue (collectOnce selCpu (envStat 3 (some 5) (some 0))
      (runTicks selCpu [envNoReads] psPrev2)) .cpu =
      some (some (wrap64 (5 - 2))) :=
  (claim10 selCpu envNoReads psPrev2).2.2 [envNoReads] .cpu 2 5
    (envStat 3 (some 5) (some 0)) (by decide) rfl (by decide)
    (by decide) (by decide) (by decide)

end ProcMon
